import Mathlib

/-!
# Project management system: hierarchy, lookup, identifier issuance, update workflow

A shallow embedding of `src/a1_data_structures.h`, `src/main.c` and the
declarations of `src/a1_functions.c` / `src/a1_functions.h`.

Conventions of the embedding.

* A C array together with its length field (`activity_list` / `num_activities`,
  `milestone_list` / `num_milestones`, `used_ids` / `num_used`) is a `List`; the
  length field is the length of the list.
* A pointer to a milestone of a project is its index in `milestone_list`; a
  pointer to an activity is the pair (milestone index, activity index). `NULL`
  is `none`.
* `unsigned short int` values are natural numbers below `65536`, `short int`
  values are integers in `[-32768, 32767]`; a store into such a field reduces
  the value into that range.
* The `float` fields range over a type parameter `C` with a zero and an
  addition. No law of the addition is assumed, so a statement made for every
  `C` holds for any arithmetic on costs. The C type itself is the instance
  `float`: IEEE 754 binary32 with round to nearest, ties to even.
* Console output is not part of the state. Console input is an explicit
  argument.
-/

namespace ProjectManagement

/-! ## Data model (`a1_data_structures.h`) -/

/-- The struct `id_manager_t`: the identifiers in use, in order of registration.
The `capacity` field only describes the allocation behind `used_ids`. -/
structure id_manager_t where
  used_ids : List Nat
deriving DecidableEq, Repr

/-- The struct `activity_t`. Durations are in hours. -/
structure activity_t (C : Type) where
  id : Nat
  name : String
  planned_cost : C
  actual_cost : C
  planned_duration : Nat
  actual_duration : Nat
  completed : Bool
deriving DecidableEq, Repr

/-- The struct `milestone_t`. `actual_duration` is a `short int`, in days. -/
structure milestone_t (C : Type) where
  id : Nat
  name : String
  activity_list : List (activity_t C)
  completed : Bool
  actual_cost : C
  actual_duration : Int
deriving DecidableEq, Repr

/-- The struct `project_t`. `actual_duration` is an `unsigned short int`, in days. -/
structure project_t (C : Type) where
  name : String
  planned_cost : C
  actual_cost : C
  planned_duration : Nat
  actual_duration : Nat
  completed : Bool
  milestone_list : List (milestone_t C)
  id_manager : id_manager_t
deriving DecidableEq, Repr

variable {C : Type}

/-- Dereference of an activity pointer `(i, j)`:
`project->milestone_list[i].activity_list[j]`. -/
def activity_at (project : project_t C) (ptr : Nat × Nat) : Option (activity_t C) :=
  project.milestone_list[ptr.1]? >>= fun milestone => milestone.activity_list[ptr.2]?

/-! ## `find_activity_by_id` (`main.c`, lines 34-47) -/

/-- The inner loop of `find_activity_by_id`, entered at index `j` with the
remaining activities: the index of the first activity whose id is
`activity_id`. -/
def find_in_activity_list (activity_id : Nat) : List (activity_t C) → Nat → Option Nat
  | [], _ => none
  | activity :: rest, j =>
    if activity.id = activity_id then some j
    else find_in_activity_list activity_id rest (j + 1)

/-- The outer loop of `find_activity_by_id`, entered at index `i` with the
remaining milestones. -/
def find_in_milestone_list (activity_id : Nat) :
    List (milestone_t C) → Nat → Option (Nat × Nat)
  | [], _ => none
  | milestone :: rest, i =>
    match find_in_activity_list activity_id milestone.activity_list 0 with
    | some j => some (i, j)
    | none => find_in_milestone_list activity_id rest (i + 1)

/-- The function `find_activity_by_id`. `milestone_out` is `none` for a `NULL`
output parameter and `some v` for a variable that holds the milestone pointer
`v`. The result is the returned activity pointer and the output parameter
after the call. -/
def find_activity_by_id (project : project_t C) (activity_id : Nat)
    (milestone_out : Option (Option Nat)) : Option (Nat × Nat) × Option (Option Nat) :=
  match find_in_milestone_list activity_id project.milestone_list 0 with
  | some (i, j) => (some (i, j), milestone_out.map fun _ => some i)
  | none => (none, milestone_out)

/-! ## `display_incomplete_activities` (`main.c`, lines 58-81) -/

/-- The inner loop of `display_incomplete_activities`: `incomplete_count` after
the remaining activities, `incomplete_count++` for each one that is not
completed. -/
def count_incomplete_in_activity_list : List (activity_t C) → Nat → Nat
  | [], incomplete_count => incomplete_count
  | activity :: rest, incomplete_count =>
    if !activity.completed then count_incomplete_in_activity_list rest (incomplete_count + 1)
    else count_incomplete_in_activity_list rest incomplete_count

/-- The outer loop of `display_incomplete_activities`. -/
def count_incomplete_in_milestone_list : List (milestone_t C) → Nat → Nat
  | [], incomplete_count => incomplete_count
  | milestone :: rest, incomplete_count =>
    count_incomplete_in_milestone_list rest
      (count_incomplete_in_activity_list milestone.activity_list incomplete_count)

/-- The return value of `display_incomplete_activities`. The project is passed
as a pointer to `const` and only read. The `int` counter is a natural number:
it is incremented at most once per activity. -/
def display_incomplete_activities (project : project_t C) : Nat :=
  count_incomplete_in_milestone_list project.milestone_list 0

/-! ## Identifier registry and `get_unique_id` (`main.c`, lines 94-113) -/

/-- Modelled from the spec: the body of `is_id_unique` is not in the sources.
Its declaration documents "true if ID is unique, false if already used", the
spec's `contains(id)` negated: `id` is not among the used identifiers. -/
def is_id_unique (id : Nat) (manager : id_manager_t) : Bool :=
  !manager.used_ids.contains id

/-- Modelled from the spec: the body of `add_id` is not in the sources. Its
declaration documents "Add a new ID to the manager", growing the array when
needed, with result `true` on success: `id` is stored after the identifiers in
use. Allocation failure is not modelled. -/
def add_id (id : Nat) (manager : id_manager_t) : Bool × id_manager_t :=
  (true, { manager with used_ids := manager.used_ids ++ [id] })

/-- The function `get_unique_id`. `inputs` are the values that successive calls
of `get_input_usi` return. The result is the returned id, the project after
the call and the unread inputs; `none` when the inputs end before the loop
does, or when `add_id` fails and the program exits. -/
def get_unique_id (project : project_t C) : List Nat → Option (Nat × project_t C × List Nat)
  | [] => none
  | id :: rest =>
    if !is_id_unique id project.id_manager then get_unique_id project rest
    else
      match add_id id project.id_manager with
      | (false, _) => none
      | (true, manager) => some (id, { project with id_manager := manager }, rest)

/-- Successive calls of `get_unique_id` on one project, as in the setup loops
of `main` (for milestones and for activities alike). Each call has its own
inputs. The result is the list of returned ids and the project after the last
call. -/
def get_unique_ids (project : project_t C) : List (List Nat) → Option (List Nat × project_t C)
  | [] => some ([], project)
  | inputs :: calls =>
    match get_unique_id project inputs with
    | none => none
    | some (id, project1, _) =>
      match get_unique_ids project1 calls with
      | none => none
      | some (ids, project2) => some (id :: ids, project2)

/-! ## Recomputation (`a1_functions.h`, declarations only) -/

/-- The constant `HOURS_PER_DAY`. -/
def HOURS_PER_DAY : Nat := 8

/-- A store into a `short int`: reduction into `[-32768, 32767]`. -/
def to_short (n : Int) : Int := (n + 32768) % 65536 - 32768

/-- A store into an `unsigned short int`: reduction into `[0, 65535]`. -/
def to_unsigned_short (n : Int) : Nat := (n % 65536).toNat

/-- The sum of costs, accumulated from zero in list order. -/
def cost_sum [Zero C] [Add C] (costs : List C) : C :=
  costs.foldl (fun total cost => total + cost) 0

/-- The sum of the activities' `actual_duration`, in hours. -/
def hours_sum (activities : List (activity_t C)) : Nat :=
  (activities.map fun activity => activity.actual_duration).sum

/-- Modelled from the spec: the body of `update_activity` is not in the
sources. The spec's `update(actual_cost, actual_duration, completed)` is an
unconditional overwrite of the three actual-state fields; the three values are
the user's input. -/
def update_activity (actual_cost : C) (actual_duration : Nat) (completed : Bool)
    (activity_to_update : activity_t C) : activity_t C :=
  { activity_to_update with
    actual_cost := actual_cost
    actual_duration := actual_duration
    completed := completed }

/-- Modelled from the spec: the body of `update_milestone` is not in the
sources. The spec's `Milestone.recompute()` derives from the activities alone:
`completed` is true iff every activity is completed, `actual_cost` is the sum
of the activities' `actual_cost`, `actual_duration` is the sum of the
activities' hours divided by `HOURS_PER_DAY` with integer division. The days
are stored in the `short int` field of `milestone_t`. -/
def update_milestone [Zero C] [Add C] (milestone_to_update : milestone_t C) : milestone_t C :=
  { milestone_to_update with
    completed := milestone_to_update.activity_list.all fun activity => activity.completed
    actual_cost :=
      cost_sum (milestone_to_update.activity_list.map fun activity => activity.actual_cost)
    actual_duration :=
      to_short ((hours_sum milestone_to_update.activity_list / HOURS_PER_DAY : Nat) : Int) }

/-- Modelled from the spec: the body of `update_project` is not in the sources.
The spec's `Project.recompute()` derives from the milestones alone: `completed`
is true iff every milestone is completed, `actual_cost` is the sum of the
milestones' `actual_cost`, `actual_duration` is the sum of the milestones'
days. The days are stored in the `unsigned short int` field of `project_t`. -/
def update_project [Zero C] [Add C] (project : project_t C) : project_t C :=
  { project with
    completed := project.milestone_list.all fun milestone => milestone.completed
    actual_cost := cost_sum (project.milestone_list.map fun milestone => milestone.actual_cost)
    actual_duration :=
      to_unsigned_short (project.milestone_list.map fun milestone => milestone.actual_duration).sum }

/-! ## The C type `float` -/

/-- A value of the C type `float`, IEEE 754 binary32. Every finite value is a
whole number of units of `2^-149`, the spacing of the smallest values; the
infinities and NaN are the one value `non_finite`. -/
inductive float where
  | finite (units : Int)
  | non_finite
deriving DecidableEq, Repr

/-- The number of low bits that do not fit the 24-bit significand: the least
`k`, counted up from the given one, with `a < 2^24 * 2^k`. -/
def float.bits_to_drop (a : Nat) : Nat → Nat → Nat
  | 0, k => k
  | fuel + 1, k => if a < 2 ^ 24 * 2 ^ k then k else float.bits_to_drop a fuel (k + 1)

/-- The `float` nearest to `n` units, ties to the even significand; a result
of `2^128` or more (that is `2^24 * 2^253` units) is not finite. -/
def float.round (n : Int) : float :=
  let a := n.natAbs
  let k := float.bits_to_drop a 254 0
  let q := a / 2 ^ k
  let r := a % 2 ^ k
  let m :=
    if 2 * r < 2 ^ k then q
    else if 2 ^ k < 2 * r then q + 1
    else if q % 2 = 0 then q else q + 1
  if 2 ^ 24 * 2 ^ 253 ≤ m * 2 ^ k then float.non_finite
  else float.finite (if n < 0 then -((m * 2 ^ k : Nat) : Int) else ((m * 2 ^ k : Nat) : Int))

/-- The addition of two `float` values: the exact sum, rounded. -/
def float.add : float → float → float
  | float.finite a, float.finite b => float.round (a + b)
  | _, _ => float.non_finite

instance : Zero float := ⟨float.finite 0⟩

instance : Add float := ⟨float.add⟩

/-- The `float` of a whole number. -/
def float.of_nat (n : Nat) : float := float.round ((n : Int) * 2 ^ 149)

/-- No addition rounds: starting from `total` units and adding the given
amounts in list order, every running total is a `float` as it stands. -/
def float.sums_exactly (total : Int) : List Int → Bool
  | [] => true
  | amount :: rest =>
    decide (float.round (total + amount) = float.finite (total + amount)) &&
      float.sums_exactly (total + amount) rest

/-! ## The update workflow (`main.c`, lines 200-256) -/

/-- A call made by the update workflow, with its pointer arguments. -/
inductive call_t where
  | display_incomplete_activities
  | find_activity_by_id (activity_id : Nat)
  | update_activity (activity : Nat × Nat)
  | update_milestone (milestone : Option Nat)
  | update_project
deriving DecidableEq, Repr

/-- The statement `update_activity(activity)`: the callee works in place on the
activity the pointer designates. -/
def apply_update_activity (update_activity : activity_t C → activity_t C)
    (project : project_t C) (activity : Nat × Nat) : project_t C :=
  { project with
    milestone_list :=
      project.milestone_list.modify
        (fun milestone =>
          { milestone with
            activity_list := milestone.activity_list.modify update_activity activity.2 })
        activity.1 }

/-- The statement `update_milestone(containing_milestone)`: the callee works in
place on the milestone the pointer designates. -/
def apply_update_milestone (update_milestone : milestone_t C → milestone_t C)
    (project : project_t C) (containing_milestone : Option Nat) : project_t C :=
  match containing_milestone with
  | none => project
  | some i => { project with milestone_list := project.milestone_list.modify update_milestone i }

/-- Case 1 of the menu switch in `main`, the update workflow. The three
callees whose bodies are not in the sources are parameters; `update_id` is the
value `get_input_usi` returns when the workflow asks for the id. The test
`activity->completed` reads the activity through `activity_at`
(`find_activity_by_id` returns pointers into the project only). The result is
the project after the workflow and the calls made, in order. -/
def update_activity_workflow (update_activity : activity_t C → activity_t C)
    (update_milestone : milestone_t C → milestone_t C)
    (update_project : project_t C → project_t C)
    (project : project_t C) (update_id : Nat) : project_t C × List call_t :=
  let incomplete_count := display_incomplete_activities project
  if incomplete_count = 0 then (project, [call_t.display_incomplete_activities])
  else if update_id = 0 then (project, [call_t.display_incomplete_activities])
  else
    match find_activity_by_id project update_id (some none) with
    | (none, _) =>
      (project, [call_t.display_incomplete_activities, call_t.find_activity_by_id update_id])
    | (some activity, containing_milestone) =>
      if (activity_at project activity).any fun pointee => pointee.completed then
        (project, [call_t.display_incomplete_activities, call_t.find_activity_by_id update_id])
      else
        let project1 := apply_update_activity update_activity project activity
        let project2 := apply_update_milestone update_milestone project1 containing_milestone.join
        let project3 := update_project project2
        (project3,
          [call_t.display_incomplete_activities, call_t.find_activity_by_id update_id,
            call_t.update_activity activity, call_t.update_milestone containing_milestone.join,
            call_t.update_project])

/-! ## A concrete project

The spec's scenario project "Website Launch" with its milestone "Design"
(activities 10 and 11), and a second milestone "Build" whose first activity is
already completed. Costs are rationals. -/

/-- Milestone 1 "Design" before any update. -/
def design : milestone_t ℚ :=
  { id := 1, name := "Design", completed := false, actual_cost := 0, actual_duration := 0,
    activity_list :=
      [{ id := 10, name := "Mockups", planned_cost := 500, actual_cost := 0,
         planned_duration := 16, actual_duration := 0, completed := false },
       { id := 11, name := "Review", planned_cost := 300, actual_cost := 0,
         planned_duration := 8, actual_duration := 0, completed := false }] }

/-- Milestone 2 "Build": activity 20 is completed, activity 21 is not. -/
def build : milestone_t ℚ :=
  { id := 2, name := "Build", completed := false, actual_cost := 100, actual_duration := 1,
    activity_list :=
      [{ id := 20, name := "Backend", planned_cost := 90, actual_cost := 100,
         planned_duration := 8, actual_duration := 9, completed := true },
       { id := 21, name := "Frontend", planned_cost := 70, actual_cost := 0,
         planned_duration := 8, actual_duration := 0, completed := false }] }

/-- The project "Website Launch" after setup and one update of activity 20. -/
def website_launch : project_t ℚ :=
  { name := "Website Launch", planned_cost := 960, actual_cost := 100,
    planned_duration := 5, actual_duration := 1, completed := false,
    milestone_list := [design, build],
    id_manager := { used_ids := [1, 10, 11, 2, 20, 21] } }

/-- The milestone "Design" after activity 10 was updated to cost 520, 20 hours,
completed; its derived fields are not yet recomputed. -/
def design_first_update : milestone_t ℚ :=
  { design with activity_list := design.activity_list.modify (update_activity 520 20 true) 0 }

/-- The milestone "Design" after activity 11 was then updated to cost 280,
8 hours, completed. -/
def design_second_update : milestone_t ℚ :=
  { design_first_update with
    activity_list := design_first_update.activity_list.modify (update_activity 280 8 true) 1 }

/-- A milestone with three activities, two of them completed. -/
def testing : milestone_t ℚ :=
  { id := 3, name := "Testing", completed := false, actual_cost := 0, actual_duration := 0,
    activity_list :=
      [{ id := 30, name := "Unit", planned_cost := 40, actual_cost := 45,
         planned_duration := 8, actual_duration := 15, completed := true },
       { id := 31, name := "Integration", planned_cost := 60, actual_cost := 50,
         planned_duration := 8, actual_duration := 8, completed := true },
       { id := 32, name := "Acceptance", planned_cost := 20, actual_cost := 0,
         planned_duration := 4, actual_duration := 0, completed := false }] }

/-- A milestone whose five completed activities took 65535 hours each, the
largest value of the `unsigned short int` field. -/
def long_haul : milestone_t ℚ :=
  { id := 4, name := "Operations", completed := false, actual_cost := 0, actual_duration := 0,
    activity_list :=
      (List.range 5).map fun k =>
        { id := 40 + k, name := "Shift", planned_cost := 0, actual_cost := 0,
          planned_duration := 65535, actual_duration := 65535, completed := true } }

/-- A milestone whose activities took 15 and 8 hours, 23 hours in all. -/
def twenty_three_hours : milestone_t ℚ :=
  { testing with activity_list := testing.activity_list.take 2 }

/-- A project holding the completed milestone "Design" and the milestone
"Build", both recomputed. -/
def one_of_two_complete : project_t ℚ :=
  { website_launch with
    milestone_list := [update_milestone design_second_update, update_milestone build] }

/-- The project `one_of_two_complete` after activity 21 of "Build" was updated
to completed and "Build" was recomputed. -/
def two_of_two_complete : project_t ℚ :=
  { website_launch with
    milestone_list :=
      [update_milestone design_second_update,
        update_milestone
          { build with
            activity_list := build.activity_list.modify (update_activity 75 7 true) 1 }] }

/-- The project "Website Launch" reduced to the milestone "Design" with both
of its activities completed. -/
def all_completed : project_t ℚ :=
  { website_launch with
    milestone_list := [update_milestone design_second_update],
    id_manager := { used_ids := [1, 10, 11] } }

/-- A milestone whose only activity was given the identifier 0 at setup and is
not completed. -/
def maintenance : milestone_t ℚ :=
  { id := 5, name := "Maintenance", completed := false, actual_cost := 0, actual_duration := 0,
    activity_list :=
      [{ id := 0, name := "Backup", planned_cost := 10, actual_cost := 0,
         planned_duration := 2, actual_duration := 0, completed := false }] }

/-- A project one of whose activities has the identifier 0. -/
def with_id_zero : project_t ℚ :=
  { website_launch with
    milestone_list := [design, maintenance],
    id_manager := { used_ids := [1, 10, 11, 5, 0] } }

/-- A completed activity with the given identifier and actual cost. -/
def paid_activity (id : Nat) (actual_cost : float) : activity_t float :=
  { id := id, name := "Task", planned_cost := actual_cost, actual_cost := actual_cost,
    planned_duration := 8, actual_duration := 8, completed := true }

/-- The milestone "Design" with `float` costs after activity 10 was updated to
cost 520; activity 11 still has cost 0. -/
def design_paid_once : milestone_t float :=
  { id := 1, name := "Design", completed := false, actual_cost := 0, actual_duration := 0,
    activity_list := [paid_activity 10 (float.of_nat 520),
      { paid_activity 11 0 with completed := false }] }

/-- The milestone "Design" with `float` costs after activity 11 was updated to
cost 280 as well. -/
def design_paid_twice : milestone_t float :=
  { design_paid_once with
    activity_list := [paid_activity 10 (float.of_nat 520), paid_activity 11 (float.of_nat 280)] }

/-- A milestone with three activities of costs 45.5, 50 and 25.25, that is
91 halves, 50 and 101 quarters. -/
def fractional_costs : milestone_t float :=
  { id := 7, name := "Licences", completed := false, actual_cost := float.of_nat 9,
    actual_duration := 4,
    activity_list := [paid_activity 70 (float.finite (91 * 2 ^ 148)),
      paid_activity 71 (float.of_nat 50), paid_activity 72 (float.finite (101 * 2 ^ 147))] }

/-- A milestone whose two activities cost 16777216 (that is `2^24`) and 1. -/
def sixteen_million : milestone_t float :=
  { id := 8, name := "Procurement", completed := false, actual_cost := 0, actual_duration := 0,
    activity_list := [paid_activity 80 (float.of_nat 16777216), paid_activity 81 (float.of_nat 1)] }

/-- A milestone whose three activities cost 16777216, 1 and 1. -/
def sixteen_million_and_two : milestone_t float :=
  { sixteen_million with
    activity_list := sixteen_million.activity_list ++ [paid_activity 82 (float.of_nat 1)] }

/-! ## Lemmas on `find_activity_by_id` -/

theorem find_in_activity_list_eq_none (activity_id : Nat) (activities : List (activity_t C))
    (j : Nat) :
    find_in_activity_list activity_id activities j = none ↔
      ∀ a ∈ activities, a.id ≠ activity_id := by
  induction activities generalizing j with
  | nil => simp [find_in_activity_list]
  | cons a rest ih =>
    by_cases h : a.id = activity_id
    · simp [find_in_activity_list, h]
    · simp [find_in_activity_list, h, ih]

theorem find_in_activity_list_sound (activity_id : Nat) (activities : List (activity_t C))
    (j0 j : Nat) (h : find_in_activity_list activity_id activities j0 = some j) :
    j0 ≤ j ∧ ∃ a, activities[j - j0]? = some a ∧ a.id = activity_id := by
  induction activities generalizing j0 with
  | nil => simp [find_in_activity_list] at h
  | cons a rest ih =>
    by_cases hid : a.id = activity_id
    · simp [find_in_activity_list, hid] at h
      subst h
      simp [hid]
    · simp [find_in_activity_list, hid] at h
      obtain ⟨hle, b, hb, hbid⟩ := ih (j0 + 1) h
      refine ⟨by omega, b, ?_, hbid⟩
      have hj : j - j0 = (j - (j0 + 1)) + 1 := by omega
      rw [hj, List.getElem?_cons_succ]
      exact hb

theorem find_in_milestone_list_eq_none (activity_id : Nat) (milestones : List (milestone_t C))
    (i : Nat) :
    find_in_milestone_list activity_id milestones i = none ↔
      ∀ m ∈ milestones, ∀ a ∈ m.activity_list, a.id ≠ activity_id := by
  induction milestones generalizing i with
  | nil => simp [find_in_milestone_list]
  | cons m rest ih =>
    cases hm : find_in_activity_list activity_id m.activity_list 0 with
    | none =>
      have hnone := (find_in_activity_list_eq_none activity_id m.activity_list 0).1 hm
      simp only [find_in_milestone_list, hm, ih, List.mem_cons, forall_eq_or_imp]
      exact ⟨fun h => ⟨hnone, h⟩, fun h => h.2⟩
    | some j =>
      obtain ⟨_, a, ha, haid⟩ := find_in_activity_list_sound activity_id m.activity_list 0 j hm
      simp only [find_in_milestone_list, hm, List.mem_cons, forall_eq_or_imp]
      constructor
      · intro h
        cases h
      · intro h
        exact absurd haid (h.1 a (List.getElem?_mem ha))

theorem find_in_milestone_list_sound (activity_id : Nat) (milestones : List (milestone_t C))
    (i0 i j : Nat) (h : find_in_milestone_list activity_id milestones i0 = some (i, j)) :
    i0 ≤ i ∧ ∃ m a, milestones[i - i0]? = some m ∧ m.activity_list[j]? = some a ∧
      a.id = activity_id := by
  induction milestones generalizing i0 with
  | nil => simp [find_in_milestone_list] at h
  | cons m rest ih =>
    cases hm : find_in_activity_list activity_id m.activity_list 0 with
    | none =>
      simp only [find_in_milestone_list, hm] at h
      obtain ⟨hle, m1, a, hm1, ha, haid⟩ := ih (i0 + 1) h
      refine ⟨by omega, m1, a, ?_, ha, haid⟩
      have hi : i - i0 = (i - (i0 + 1)) + 1 := by omega
      rw [hi, List.getElem?_cons_succ]
      exact hm1
    | some j1 =>
      simp only [find_in_milestone_list, hm, Option.some.injEq, Prod.mk.injEq] at h
      obtain ⟨hi, hj⟩ := h
      subst hi hj
      obtain ⟨_, a, ha, haid⟩ := find_in_activity_list_sound activity_id m.activity_list 0 j1 hm
      exact ⟨le_refl _, m, a, by simp, by simpa using ha, haid⟩

/-- A pointer returned by `find_activity_by_id` designates an activity of the
project, and that activity has the requested id. -/
theorem find_activity_by_id_valid (project : project_t C) (activity_id : Nat)
    (milestone_out : Option (Option Nat)) (ptr : Nat × Nat)
    (h : (find_activity_by_id project activity_id milestone_out).1 = some ptr) :
    (find_activity_by_id project activity_id milestone_out).2
        = milestone_out.map (fun _ => some ptr.1) ∧
      ∃ a, activity_at project ptr = some a ∧ a.id = activity_id := by
  unfold find_activity_by_id at h ⊢
  cases hf : find_in_milestone_list activity_id project.milestone_list 0 with
  | none => simp [hf] at h
  | some r =>
    obtain ⟨i, j⟩ := r
    simp only [hf, Option.some.injEq] at h ⊢
    subst h
    obtain ⟨_, m, a, hm, ha, haid⟩ :=
      find_in_milestone_list_sound activity_id project.milestone_list 0 i j hf
    refine ⟨rfl, a, ?_, haid⟩
    simp only [Nat.sub_zero] at hm
    simp [activity_at, hm, ha]

theorem find_activity_by_id_eq_none (project : project_t C) (activity_id : Nat)
    (milestone_out : Option (Option Nat)) :
    (find_activity_by_id project activity_id milestone_out).1 = none ↔
      ∀ m ∈ project.milestone_list, ∀ a ∈ m.activity_list, a.id ≠ activity_id := by
  rw [← find_in_milestone_list_eq_none activity_id project.milestone_list 0]
  unfold find_activity_by_id
  cases hf : find_in_milestone_list activity_id project.milestone_list 0 with
  | none => simp
  | some r => simp

theorem activity_at_mem (project : project_t C) (ptr : Nat × Nat) (a : activity_t C)
    (h : activity_at project ptr = some a) :
    ∃ m ∈ project.milestone_list, a ∈ m.activity_list := by
  unfold activity_at at h
  cases hm : project.milestone_list[ptr.1]? with
  | none => simp [hm] at h
  | some m =>
    simp [hm] at h
    exact ⟨m, List.getElem?_mem hm, List.getElem?_mem h⟩

/-! ## Lemmas on `display_incomplete_activities` -/

theorem count_incomplete_in_activity_list_eq (activities : List (activity_t C)) (n : Nat) :
    count_incomplete_in_activity_list activities n
      = n + activities.countP (fun a => !a.completed) := by
  induction activities generalizing n with
  | nil => simp [count_incomplete_in_activity_list]
  | cons a rest ih =>
    cases hc : a.completed
    · simp [count_incomplete_in_activity_list, hc, ih, List.countP_cons]
      omega
    · simp [count_incomplete_in_activity_list, hc, ih, List.countP_cons]

theorem count_incomplete_in_milestone_list_eq (milestones : List (milestone_t C)) (n : Nat) :
    count_incomplete_in_milestone_list milestones n
      = n + (milestones.map fun m => m.activity_list.countP (fun a => !a.completed)).sum := by
  induction milestones generalizing n with
  | nil => simp [count_incomplete_in_milestone_list]
  | cons m rest ih =>
    simp [count_incomplete_in_milestone_list, ih, count_incomplete_in_activity_list_eq]
    omega

theorem display_incomplete_activities_eq_zero (project : project_t C) :
    display_incomplete_activities project = 0 ↔
      ∀ m ∈ project.milestone_list, ∀ a ∈ m.activity_list, a.completed = true := by
  unfold display_incomplete_activities
  rw [count_incomplete_in_milestone_list_eq]
  simp [List.sum_eq_zero_iff, List.countP_eq_zero]

theorem display_incomplete_activities_le (project : project_t C) :
    display_incomplete_activities project
      ≤ (project.milestone_list.map fun m => m.activity_list.length).sum := by
  unfold display_incomplete_activities
  rw [count_incomplete_in_milestone_list_eq, Nat.zero_add]
  induction project.milestone_list with
  | nil => simp
  | cons m rest ih =>
    simp only [List.map_cons, List.sum_cons]
    exact Nat.add_le_add (List.countP_le_length _) ih

/-! ## Lemmas on the update workflow -/

/-- The workflow when the lookup fails: nothing is modified and no update
function is called. -/
theorem update_activity_workflow_not_found (upd_a : activity_t C → activity_t C)
    (upd_m : milestone_t C → milestone_t C) (upd_p : project_t C → project_t C)
    (project : project_t C) (update_id : Nat)
    (h : (find_activity_by_id project update_id (some none)).1 = none) :
    (update_activity_workflow upd_a upd_m upd_p project update_id).1 = project ∧
      ∀ c ∈ (update_activity_workflow upd_a upd_m upd_p project update_id).2,
        c = call_t.display_incomplete_activities ∨ c = call_t.find_activity_by_id update_id := by
  unfold update_activity_workflow
  rcases hf : find_activity_by_id project update_id (some none) with ⟨r, out⟩
  rw [hf] at h
  simp only at h
  subst h
  by_cases h0 : display_incomplete_activities project = 0
  · simp [h0]
  · by_cases hid : update_id = 0
    · simp [h0, hid]
    · simp [h0, hid]

theorem modify_eq_set_of_getElem? {α : Type} (f : α → α) (n : Nat) (l : List α) (a : α)
    (h : l[n]? = some a) : List.modify f n l = l.set n (f a) := by
  rw [List.modify_eq_set_get?, List.get?_eq_getElem?, h]
  rfl

theorem modify_set_same {α : Type} (f : α → α) (n : Nat) (l : List α) (a : α)
    (h : n < l.length) : List.modify f n (l.set n a) = l.set n (f a) := by
  rw [modify_eq_set_of_getElem? f n (l.set n a) a (by simp [h]), List.set_set]

theorem activity_at_eq_some (project : project_t C) (ptr : Nat × Nat) (a : activity_t C) :
    activity_at project ptr = some a ↔
      ∃ m, project.milestone_list[ptr.1]? = some m ∧ m.activity_list[ptr.2]? = some a := by
  unfold activity_at
  cases hm : project.milestone_list[ptr.1]? with
  | none => simp
  | some m => simp

/-- The statement `update_activity(activity)` replaces the designated activity
and nothing else. -/
theorem apply_update_activity_eq (upd_a : activity_t C → activity_t C) (project : project_t C)
    (ptr : Nat × Nat) (m : milestone_t C) (a : activity_t C)
    (hm : project.milestone_list[ptr.1]? = some m) (ha : m.activity_list[ptr.2]? = some a) :
    apply_update_activity upd_a project ptr =
      { project with
        milestone_list :=
          project.milestone_list.set ptr.1
            { m with activity_list := m.activity_list.set ptr.2 (upd_a a) } } := by
  unfold apply_update_activity
  rw [modify_eq_set_of_getElem? _ ptr.1 project.milestone_list m hm,
    modify_eq_set_of_getElem? upd_a ptr.2 m.activity_list a ha]

theorem activity_at_apply_update_activity (upd_a : activity_t C → activity_t C)
    (project : project_t C) (ptr q : Nat × Nat) :
    activity_at (apply_update_activity upd_a project ptr) q =
      if ptr = q then (activity_at project q).map upd_a else activity_at project q := by
  obtain ⟨i, j⟩ := ptr
  obtain ⟨i1, j1⟩ := q
  simp only [activity_at, apply_update_activity, List.getElem?_modify]
  cases hm : project.milestone_list[i1]? with
  | none => simp
  | some m =>
    by_cases hi : i = i1
    · subst hi
      cases ha : m.activity_list[j1]? with
      | none => simp [List.getElem?_modify, ha]
      | some a =>
        by_cases hj : j = j1
        · subst hj
          simp [List.getElem?_modify, ha]
        · simp [List.getElem?_modify, ha, hj]
    · simp [hi]

theorem activity_at_apply_update_milestone (upd_m : milestone_t C → milestone_t C)
    (hm : ∀ m, (upd_m m).activity_list = m.activity_list)
    (project : project_t C) (containing_milestone : Option Nat) (q : Nat × Nat) :
    activity_at (apply_update_milestone upd_m project containing_milestone) q =
      activity_at project q := by
  cases containing_milestone with
  | none => rfl
  | some i =>
    simp only [activity_at, apply_update_milestone, List.getElem?_modify]
    cases hq : project.milestone_list[q.1]? with
    | none => simp
    | some m =>
      by_cases hi : i = q.1
      · simp [hi, hm]
      · simp [hi]

/-- The workflow when the lookup succeeds: it is decided by the `completed`
flag of the activity found. -/
theorem update_activity_workflow_found (upd_a : activity_t C → activity_t C)
    (upd_m : milestone_t C → milestone_t C) (upd_p : project_t C → project_t C)
    (project : project_t C) (update_id : Nat) (ptr : Nat × Nat) (a : activity_t C)
    (hfind : (find_activity_by_id project update_id (some none)).1 = some ptr)
    (hat : activity_at project ptr = some a) :
    update_activity_workflow upd_a upd_m upd_p project update_id =
      if display_incomplete_activities project = 0 ∨ update_id = 0 then
        (project, [call_t.display_incomplete_activities])
      else if a.completed then
        (project, [call_t.display_incomplete_activities, call_t.find_activity_by_id update_id])
      else
        (upd_p (apply_update_milestone upd_m (apply_update_activity upd_a project ptr)
            (some ptr.1)),
          [call_t.display_incomplete_activities, call_t.find_activity_by_id update_id,
            call_t.update_activity ptr, call_t.update_milestone (some ptr.1),
            call_t.update_project]) := by
  have hout := (find_activity_by_id_valid project update_id (some none) ptr hfind).1
  unfold update_activity_workflow
  rcases hf : find_activity_by_id project update_id (some none) with ⟨r, out⟩
  rw [hf] at hfind hout
  simp only at hfind hout
  subst hfind hout
  by_cases h0 : display_incomplete_activities project = 0
  · simp [h0]
  · by_cases hid : update_id = 0
    · simp [h0, hid]
    · cases hc : a.completed <;> simp [h0, hid, hat, hc]

/-! ## Lemmas on `get_unique_id` -/

theorem is_id_unique_iff (id : Nat) (manager : id_manager_t) :
    is_id_unique id manager = true ↔ id ∉ manager.used_ids := by
  simp [is_id_unique]

/-- A call of `get_unique_id` that returns: the returned id is the first
candidate that is not in use, and the call stores it after the ids in use,
changing nothing else in the project. -/
theorem get_unique_id_eq_some (project : project_t C) (inputs : List Nat) (id : Nat)
    (project1 : project_t C) (rest : List Nat)
    (h : get_unique_id project inputs = some (id, project1, rest)) :
    id ∉ project.id_manager.used_ids ∧
      project1 = { project with
        id_manager := { used_ids := project.id_manager.used_ids ++ [id] } } ∧
      ∃ rejected, inputs = rejected ++ id :: rest ∧
        ∀ x ∈ rejected, x ∈ project.id_manager.used_ids := by
  induction inputs with
  | nil => simp [get_unique_id] at h
  | cons x xs ih =>
    by_cases hx : x ∈ project.id_manager.used_ids
    · have hu : is_id_unique x project.id_manager = false := by simp [is_id_unique, hx]
      simp only [get_unique_id, hu, Bool.not_false, if_true] at h
      obtain ⟨h1, h2, rejected, h3, h4⟩ := ih h
      refine ⟨h1, h2, x :: rejected, by simp [h3], ?_⟩
      intro y hy
      rcases List.mem_cons.1 hy with rfl | hy
      · exact hx
      · exact h4 y hy
    · have hu : is_id_unique x project.id_manager = true := by simp [is_id_unique, hx]
      simp only [get_unique_id, hu, add_id, Bool.not_true, Bool.false_eq_true, if_false,
        Option.some.injEq, Prod.mk.injEq] at h
      obtain ⟨h1, h2, h3⟩ := h
      subst h1 h3
      exact ⟨hx, h2.symm, [], rfl, by simp⟩

theorem get_unique_id_returns (project : project_t C) (inputs : List Nat)
    (h : ∃ x ∈ inputs, x ∉ project.id_manager.used_ids) :
    ∃ r, get_unique_id project inputs = some r := by
  induction inputs with
  | nil => simp at h
  | cons x xs ih =>
    by_cases hx : x ∈ project.id_manager.used_ids
    · have hu : is_id_unique x project.id_manager = false := by simp [is_id_unique, hx]
      simp only [get_unique_id, hu, Bool.not_false, if_true]
      apply ih
      obtain ⟨y, hy, hyn⟩ := h
      rcases List.mem_cons.1 hy with rfl | hy
      · exact absurd hx hyn
      · exact ⟨y, hy, hyn⟩
    · have hu : is_id_unique x project.id_manager = true := by simp [is_id_unique, hx]
      simp [get_unique_id, hu, add_id]

/-- Successive calls of `get_unique_id` that all return: the returned ids are
pairwise distinct, none was in use before, and the ids in use afterwards are
the former ones followed by the returned ones. -/
theorem get_unique_ids_eq_some (project : project_t C) (calls : List (List Nat))
    (ids : List Nat) (project1 : project_t C)
    (h : get_unique_ids project calls = some (ids, project1)) :
    ids.Nodup ∧ (∀ x ∈ ids, x ∉ project.id_manager.used_ids) ∧
      project1.id_manager.used_ids = project.id_manager.used_ids ++ ids := by
  induction calls generalizing project ids with
  | nil =>
    simp only [get_unique_ids, Option.some.injEq, Prod.mk.injEq] at h
    obtain ⟨h1, h2⟩ := h
    subst h1 h2
    simp
  | cons inputs calls ih =>
    cases hg : get_unique_id project inputs with
    | none => simp [get_unique_ids, hg] at h
    | some r =>
      obtain ⟨id, p1, rest⟩ := r
      cases hs : get_unique_ids p1 calls with
      | none => simp [get_unique_ids, hg, hs] at h
      | some r2 =>
        obtain ⟨ids2, p2⟩ := r2
        simp only [get_unique_ids, hg, hs, Option.some.injEq, Prod.mk.injEq] at h
        obtain ⟨h1, h2⟩ := h
        subst h1 h2
        obtain ⟨hfresh, hp1, _⟩ := get_unique_id_eq_some project inputs id p1 rest hg
        obtain ⟨hnodup, hnot, hused⟩ := ih p1 ids2 hs
        have hp1u : p1.id_manager.used_ids = project.id_manager.used_ids ++ [id] := by
          rw [hp1]
        rw [hp1u] at hnot hused
        refine ⟨List.nodup_cons.2 ⟨?_, hnodup⟩, ?_, ?_⟩
        · intro hmem
          exact hnot id hmem (by simp)
        · intro x hx
          rcases List.mem_cons.1 hx with rfl | hx
          · exact hfresh
          · intro hxu
            exact hnot x hx (by simp [hxu])
        · rw [hused]
          simp

/-! ## Lemmas on recomputation -/

theorem to_short_of_fits (n : Int) (h0 : 0 ≤ n) (h1 : n ≤ 32767) : to_short n = n := by
  unfold to_short
  omega

theorem to_short_range (n : Int) : -32768 ≤ to_short n ∧ to_short n ≤ 32767 := by
  unfold to_short
  omega

theorem update_milestone_iterate [Zero C] [Add C] (milestone : milestone_t C) (n : Nat) :
    update_milestone^[n + 1] milestone = update_milestone milestone := by
  induction n with
  | zero => rfl
  | succ k ih =>
    rw [Function.iterate_succ_apply', ih]
    rfl

/-- Accumulating `float` amounts in list order gives their exact sum when no
addition rounds. -/
theorem foldl_add_of_sums_exactly (units : List Int) (total : Int)
    (h : float.sums_exactly total units = true) :
    (units.map float.finite).foldl (fun t cost => t + cost) (float.finite total)
      = float.finite (total + units.sum) := by
  induction units generalizing total with
  | nil => simp
  | cons amount rest ih =>
    simp only [float.sums_exactly, Bool.and_eq_true, decide_eq_true_eq] at h
    have hstep : float.finite total + float.finite amount = float.finite (total + amount) :=
      h.1
    simp only [List.map_cons, List.foldl_cons, hstep, ih (total + amount) h.2, List.sum_cons,
      add_assoc]

theorem cost_sum_of_sums_exactly (units : List Int)
    (h : float.sums_exactly 0 units = true) :
    cost_sum (units.map float.finite) = float.finite units.sum := by
  have h0 := foldl_add_of_sums_exactly units 0 h
  rw [zero_add] at h0
  exact h0

/-! ## Claims on `find_activity_by_id` -/

/-- C1: when exactly one activity of the project (over all milestones) has
identifier `activity_id`, namely the one at `(i, j)`, `find_activity_by_id`
returns the pointer to that activity, not `NULL`, and stores in the output
parameter the pointer to milestone `i`, whose `activity_list` holds it. -/
theorem find_activity_by_id_unique (project : project_t C) (activity_id : Nat)
    (containing_milestone : Option Nat) (i j : Nat) (a : activity_t C)
    (hat : activity_at project (i, j) = some a) (hid : a.id = activity_id)
    (huniq : ∀ ptr b, activity_at project ptr = some b → b.id = activity_id → ptr = (i, j)) :
    find_activity_by_id project activity_id (some containing_milestone)
      = (some (i, j), some (some i)) := by
  cases hf : (find_activity_by_id project activity_id (some containing_milestone)).1 with
  | none =>
    obtain ⟨m, hm, ha⟩ := activity_at_mem project (i, j) a hat
    exact absurd hid ((find_activity_by_id_eq_none project activity_id _).1 hf m hm a ha)
  | some ptr =>
    obtain ⟨hout, b, hb, hbid⟩ := find_activity_by_id_valid project activity_id _ ptr hf
    have hptr := huniq ptr b hb hbid
    subst hptr
    exact Prod.ext hf (by simpa using hout)

theorem find_activity_by_id_unique_witness :
    activity_at website_launch (1, 1)
        = some { id := 21, name := "Frontend", planned_cost := 70, actual_cost := 0,
                 planned_duration := 8, actual_duration := 0, completed := false } ∧
      find_activity_by_id website_launch 21 (some none) = (some (1, 1), some (some 1)) :=
  ⟨rfl,
    find_activity_by_id_unique website_launch 21 none 1 1 _ rfl rfl (by
      rintro ⟨i, j⟩ b hb hbid
      rcases i with _ | _ | i <;> rcases j with _ | _ | j <;>
        simp [activity_at, website_launch, design, build] at hb <;>
        subst hb <;> simp at hbid ⊢)⟩

/-- C2: `find_activity_by_id` returns `NULL` if and only if no activity of any
milestone of the project has identifier `activity_id`; when it does, the
milestone output parameter keeps its value, and the update workflow entered
with that id leaves the project as it was and calls no update function. -/
theorem find_activity_by_id_not_found (upd_a : activity_t C → activity_t C)
    (upd_m : milestone_t C → milestone_t C) (upd_p : project_t C → project_t C)
    (project : project_t C) (activity_id : Nat) (milestone_out : Option (Option Nat)) :
    ((find_activity_by_id project activity_id milestone_out).1 = none ↔
        ∀ m ∈ project.milestone_list, ∀ a ∈ m.activity_list, a.id ≠ activity_id) ∧
      ((find_activity_by_id project activity_id milestone_out).1 = none →
        (find_activity_by_id project activity_id milestone_out).2 = milestone_out ∧
        (update_activity_workflow upd_a upd_m upd_p project activity_id).1 = project ∧
        ∀ c ∈ (update_activity_workflow upd_a upd_m upd_p project activity_id).2,
          c = call_t.display_incomplete_activities ∨
            c = call_t.find_activity_by_id activity_id) := by
  refine ⟨find_activity_by_id_eq_none project activity_id milestone_out, fun h => ⟨?_, ?_⟩⟩
  · unfold find_activity_by_id at h ⊢
    cases hf : find_in_milestone_list activity_id project.milestone_list 0 with
    | none => rfl
    | some r => simp [hf] at h
  · have hall := (find_activity_by_id_eq_none project activity_id milestone_out).1 h
    exact update_activity_workflow_not_found upd_a upd_m upd_p project activity_id
      ((find_activity_by_id_eq_none project activity_id (some none)).2 hall)

theorem find_activity_by_id_not_found_witness :
    (find_activity_by_id website_launch 12 (some (some 0))).1 = none ∧
      (find_activity_by_id website_launch 12 (some (some 0))).2 = some (some 0) ∧
      (update_activity_workflow (update_activity 5 3 true) update_milestone update_project
        website_launch 12).1 = website_launch :=
  have h : (find_activity_by_id website_launch 12 (some (some 0))).1 = none := by decide
  ⟨h,
    ((find_activity_by_id_not_found (update_activity 5 3 true) update_milestone update_project
      website_launch 12 (some (some 0))).2 h).1,
    ((find_activity_by_id_not_found (update_activity 5 3 true) update_milestone update_project
      website_launch 12 (some (some 0))).2 h).2.1⟩

/-! ## Claim on `get_unique_id` -/

/-- C3: with `is_id_unique` as non-membership in the registry and `add_id` as
insertion, the id that a call of `get_unique_id` returns was not registered
before the call and is registered after it, and every id registered before is
still registered; the call returns as soon as a candidate is not registered.
Hence the ids returned by successive calls on one project are pairwise
distinct. -/
theorem get_unique_id_fresh (project : project_t C) :
    (∀ inputs id project1 rest, get_unique_id project inputs = some (id, project1, rest) →
        id ∉ project.id_manager.used_ids ∧ id ∈ project1.id_manager.used_ids ∧
        ∀ x ∈ project.id_manager.used_ids, x ∈ project1.id_manager.used_ids) ∧
      (∀ inputs, (∃ x ∈ inputs, x ∉ project.id_manager.used_ids) →
        ∃ r, get_unique_id project inputs = some r) ∧
      (∀ calls ids project1, get_unique_ids project calls = some (ids, project1) →
        ids.Nodup) := by
  refine ⟨?_, get_unique_id_returns project, ?_⟩
  · intro inputs id project1 rest h
    obtain ⟨hfresh, hp1, _⟩ := get_unique_id_eq_some project inputs id project1 rest h
    subst hp1
    exact ⟨hfresh, by simp, fun x hx => by simp [hx]⟩
  · intro calls ids project1 h
    exact (get_unique_ids_eq_some project calls ids project1 h).1

theorem get_unique_id_fresh_witness :
    get_unique_id website_launch [10, 2, 30, 40]
        = some (30, { website_launch with id_manager := { used_ids := [1, 10, 11, 2, 20, 21, 30] } },
            [40]) ∧
      (30 ∉ website_launch.id_manager.used_ids ∧
        30 ∈ [1, 10, 11, 2, 20, 21, 30] ∧
        ∀ x ∈ website_launch.id_manager.used_ids, x ∈ [1, 10, 11, 2, 20, 21, 30]) ∧
      get_unique_ids website_launch [[10, 30], [30, 1, 31], [32]]
        = some ([30, 31, 32],
            { website_launch with
              id_manager := { used_ids := [1, 10, 11, 2, 20, 21, 30, 31, 32] } }) ∧
      [30, 31, 32].Nodup :=
  ⟨rfl, (get_unique_id_fresh website_launch).1 [10, 2, 30, 40] 30 _ [40] rfl, rfl,
    (get_unique_id_fresh website_launch).2.2 [[10, 30], [30, 1, 31], [32]] [30, 31, 32] _ rfl⟩

/-! ## Claims on recomputation -/

/-- C4: for a milestone with at least one activity, `update_milestone` leaves
the activities as they are and sets `completed` to true if and only if every
activity of the `activity_list` has `completed` true. -/
theorem update_milestone_completed_iff [Zero C] [Add C] (milestone : milestone_t C)
    (_hne : milestone.activity_list ≠ []) :
    (update_milestone milestone).activity_list = milestone.activity_list ∧
      ((update_milestone milestone).completed = true ↔
        ∀ a ∈ (update_milestone milestone).activity_list, a.completed = true) := by
  simp [update_milestone]

theorem update_milestone_completed_iff_witness :
    testing.activity_list ≠ [] ∧
      ((update_milestone testing).completed = true ↔
        ∀ a ∈ (update_milestone testing).activity_list, a.completed = true) ∧
      (update_milestone testing).completed = false ∧
      (update_milestone
        { testing with
          activity_list := testing.activity_list.modify (update_activity 25 5 true) 2 }).completed
        = true :=
  ⟨by simp [testing], (update_milestone_completed_iff testing (by simp [testing])).2, rfl, rfl⟩

/-- C5, at its failing input: five activities of 65535 hours each total 327675
hours, that is 40959 whole days, which the `short int` field
`actual_duration` of `milestone_t` cannot hold. -/
theorem update_milestone_actual_duration_overflow :
    hours_sum long_haul.activity_list = 327675 ∧
      (327675 / HOURS_PER_DAY : Nat) = 40959 ∧
      (update_milestone long_haul).actual_duration = -24577 ∧
      (update_milestone long_haul).actual_duration ≠
        ((hours_sum long_haul.activity_list / HOURS_PER_DAY : Nat) : Int) := by
  decide

/-- C5, amended: when the whole days `hours_sum / HOURS_PER_DAY` of a milestone
fit the `short int` field (at most 32767), `update_milestone` sets
`actual_duration` to that quotient of the integer division by 8. -/
theorem update_milestone_actual_duration [Zero C] [Add C] (milestone : milestone_t C)
    (hfit : hours_sum milestone.activity_list / HOURS_PER_DAY ≤ 32767) :
    (update_milestone milestone).actual_duration =
      ((hours_sum milestone.activity_list / HOURS_PER_DAY : Nat) : Int) := by
  simp only [update_milestone]
  apply to_short_of_fits
  · exact Int.ofNat_nonneg _
  · exact_mod_cast hfit

theorem update_milestone_actual_duration_witness :
    hours_sum twenty_three_hours.activity_list = 23 ∧
      hours_sum twenty_three_hours.activity_list / HOURS_PER_DAY ≤ 32767 ∧
      (update_milestone twenty_three_hours).actual_duration = 2 :=
  ⟨by decide, by decide,
    update_milestone_actual_duration twenty_three_hours (by decide)⟩

set_option maxRecDepth 100000

/-- C6, at its failing input: activities that cost 16777216 and 1 have the
exact sum 16777217, which is not a `float`; `update_milestone` stores
16777216. With a third activity of cost 1 the exact sum 16777218 is a `float`
and the stored cost is 16777216 all the same, the first addition having
rounded. -/
theorem update_milestone_actual_cost_rounds :
    (sixteen_million.activity_list.map fun a => a.actual_cost)
        = [float.finite (16777216 * 2 ^ 149), float.finite (1 * 2 ^ 149)] ∧
      float.round (16777217 * 2 ^ 149) ≠ float.finite (16777217 * 2 ^ 149) ∧
      (update_milestone sixteen_million).actual_cost = float.finite (16777216 * 2 ^ 149) ∧
      (update_milestone sixteen_million).actual_cost
        ≠ float.finite (16777216 * 2 ^ 149 + 1 * 2 ^ 149) ∧
      float.round (16777218 * 2 ^ 149) = float.finite (16777218 * 2 ^ 149) ∧
      (update_milestone sixteen_million_and_two).actual_cost
        = float.finite (16777216 * 2 ^ 149) := by
  decide

/-- C6, amended: when the activities' actual costs are finite `float` values
and no addition rounds as they are accumulated in list order, then after any
number of calls of `update_milestone`, one or more, and whatever the derived
fields held before, the milestone's `actual_cost` is the exact sum of the
`actual_cost` of all its activities. -/
theorem update_milestone_actual_cost_exact (milestone : milestone_t float) (n : Nat)
    (completed : Bool) (actual_cost : float) (actual_duration : Int) (units : List Int)
    (hfinite : (milestone.activity_list.map fun a => a.actual_cost) = units.map float.finite)
    (hexact : float.sums_exactly 0 units = true) :
    (update_milestone^[n + 1] milestone).actual_cost = float.finite units.sum ∧
      (update_milestone
        { milestone with
          completed := completed
          actual_cost := actual_cost
          actual_duration := actual_duration }).actual_cost
        = float.finite units.sum := by
  rw [update_milestone_iterate]
  simp only [update_milestone, hfinite]
  exact ⟨cost_sum_of_sums_exactly units hexact, cost_sum_of_sums_exactly units hexact⟩

theorem update_milestone_actual_cost_exact_witness :
    (update_milestone design_paid_once).actual_cost = float.of_nat 520 ∧
      (update_milestone (update_milestone design_paid_once)).actual_cost = float.of_nat 520 ∧
      (update_milestone design_paid_twice).actual_cost = float.of_nat 800 ∧
      float.sums_exactly 0 [91 * 2 ^ 148, 50 * 2 ^ 149, 101 * 2 ^ 147] = true ∧
      (update_milestone fractional_costs).actual_cost = float.finite (483 * 2 ^ 147) :=
  ⟨(update_milestone_actual_cost_exact design_paid_once 0 false 0 0 [520 * 2 ^ 149, 0]
      (by decide) (by decide)).1.trans (by decide),
    (update_milestone_actual_cost_exact design_paid_once 1 false 0 0 [520 * 2 ^ 149, 0]
      (by decide) (by decide)).1.trans (by decide),
    (update_milestone_actual_cost_exact design_paid_twice 0 false 0 0
      [520 * 2 ^ 149, 280 * 2 ^ 149] (by decide) (by decide)).1.trans (by decide),
    by decide,
    (update_milestone_actual_cost_exact fractional_costs 0 false 0 0
      [91 * 2 ^ 148, 50 * 2 ^ 149, 101 * 2 ^ 147] (by decide) (by decide)).1.trans (by decide)⟩

/-- C7: `update_project` leaves the milestones as they are and sets the
project's `completed` to true if and only if every milestone of the
`milestone_list` has `completed` true; with one milestone not completed, the
project is not completed. -/
theorem update_project_completed_iff [Zero C] [Add C] (project : project_t C) :
    (update_project project).milestone_list = project.milestone_list ∧
      ((update_project project).completed = true ↔
        ∀ m ∈ (update_project project).milestone_list, m.completed = true) ∧
      ((∃ m ∈ project.milestone_list, m.completed = false) →
        (update_project project).completed = false) := by
  refine ⟨rfl, by simp [update_project], ?_⟩
  rintro ⟨m, hm, hc⟩
  simp only [update_project, List.all_eq_false]
  exact ⟨m, hm, by simp [hc]⟩

theorem update_project_completed_iff_witness :
    (one_of_two_complete.milestone_list.map fun m => m.completed) = [true, false] ∧
      (update_project one_of_two_complete).completed = false ∧
      (two_of_two_complete.milestone_list.map fun m => m.completed) = [true, true] ∧
      (update_project two_of_two_complete).completed = true :=
  ⟨rfl,
    (update_project_completed_iff one_of_two_complete).2.2 ⟨update_milestone build, by
      simp [one_of_two_complete], rfl⟩,
    rfl, rfl⟩

/-- C8: recomputation is idempotent. A second `update_milestone` right after
the first gives the same milestone, and a second `update_project` right after
the first gives the same project. -/
theorem recompute_idempotent [Zero C] [Add C] (milestone : milestone_t C)
    (project : project_t C) :
    update_milestone (update_milestone milestone) = update_milestone milestone ∧
      update_project (update_project project) = update_project project :=
  ⟨rfl, rfl⟩

/-! ## Claims on the update workflow -/

/-- C9: for a non-zero id that `find_activity_by_id` resolves to an activity
with `completed` false, the update workflow calls `update_activity` on the
activity found, then `update_milestone` on the milestone that holds it, then
`update_project` on the project, in that order and once each. Before
`update_project` runs, the project differs from the initial one in that
milestone only, and the milestone's activities in that activity only. -/
theorem update_activity_workflow_updates (upd_a : activity_t C → activity_t C)
    (upd_m : milestone_t C → milestone_t C) (upd_p : project_t C → project_t C)
    (project : project_t C) (update_id : Nat) (ptr : Nat × Nat) (a : activity_t C)
    (hid : update_id ≠ 0)
    (hfind : (find_activity_by_id project update_id (some none)).1 = some ptr)
    (hat : activity_at project ptr = some a) (hc : a.completed = false) :
    ∃ m, project.milestone_list[ptr.1]? = some m ∧ m.activity_list[ptr.2]? = some a ∧
      update_activity_workflow upd_a upd_m upd_p project update_id =
        (upd_p
          { project with
            milestone_list :=
              project.milestone_list.set ptr.1
                (upd_m { m with activity_list := m.activity_list.set ptr.2 (upd_a a) }) },
          [call_t.display_incomplete_activities, call_t.find_activity_by_id update_id,
            call_t.update_activity ptr, call_t.update_milestone (some ptr.1),
            call_t.update_project]) := by
  obtain ⟨m, hm, ha⟩ := (activity_at_eq_some project ptr a).1 hat
  refine ⟨m, hm, ha, ?_⟩
  have h0 : display_incomplete_activities project ≠ 0 := by
    intro h
    have := (display_incomplete_activities_eq_zero project).1 h m (List.getElem?_mem hm) a
      (List.getElem?_mem ha)
    simp [hc] at this
  rw [update_activity_workflow_found upd_a upd_m upd_p project update_id ptr a hfind hat]
  have hlt : ptr.1 < project.milestone_list.length := by
    obtain ⟨h, _⟩ := List.getElem?_eq_some.1 hm
    exact h
  simp only [h0, hid, or_self, if_false, hc, Bool.false_eq_true,
    apply_update_activity_eq upd_a project ptr m a hm ha, apply_update_milestone,
    modify_set_same upd_m ptr.1 project.milestone_list _ hlt]

theorem update_activity_workflow_updates_witness :
    (find_activity_by_id website_launch 11 (some none)).1 = some (0, 1) ∧
      (activity_at website_launch (0, 1)).map (fun a => a.completed) = some false ∧
      (update_activity_workflow (update_activity 280 8 true) update_milestone update_project
        website_launch 11).2 =
        [call_t.display_incomplete_activities, call_t.find_activity_by_id 11,
          call_t.update_activity (0, 1), call_t.update_milestone (some 0),
          call_t.update_project] ∧
      (update_activity_workflow (update_activity 280 8 true) update_milestone update_project
        website_launch 11).1.milestone_list[1]? = some build := by
  obtain ⟨m, _, _, h⟩ :=
    update_activity_workflow_updates (update_activity 280 8 true) update_milestone
      update_project website_launch 11 (0, 1) _ (by decide) (by decide)
      (rfl : activity_at website_launch (0, 1) = some _) rfl
  refine ⟨by decide, rfl, congrArg Prod.snd h, ?_⟩
  rw [h]
  rfl

/-- C10: for an id that `find_activity_by_id` resolves to an activity with
`completed` true, the update workflow calls none of `update_activity`,
`update_milestone`, `update_project` and leaves the whole project as it was.
Consequently, with recompute functions that leave activities alone, the
update workflow never changes an activity that is already completed,
whatever id is entered. -/
theorem update_activity_workflow_blocked (upd_a : activity_t C → activity_t C)
    (upd_m : milestone_t C → milestone_t C) (upd_p : project_t C → project_t C)
    (project : project_t C) (update_id : Nat) :
    (∀ ptr a, (find_activity_by_id project update_id (some none)).1 = some ptr →
        activity_at project ptr = some a → a.completed = true →
        (update_activity_workflow upd_a upd_m upd_p project update_id).1 = project ∧
        ∀ c ∈ (update_activity_workflow upd_a upd_m upd_p project update_id).2,
          c = call_t.display_incomplete_activities ∨
            c = call_t.find_activity_by_id update_id) ∧
      ((∀ m, (upd_m m).activity_list = m.activity_list) →
        (∀ p q, activity_at (upd_p p) q = activity_at p q) →
        ∀ q b, activity_at project q = some b → b.completed = true →
          activity_at (update_activity_workflow upd_a upd_m upd_p project update_id).1 q
            = some b) := by
  constructor
  · intro ptr a hfind hat hc
    rw [update_activity_workflow_found upd_a upd_m upd_p project update_id ptr a hfind hat]
    by_cases h0 : display_incomplete_activities project = 0 ∨ update_id = 0
    · simp [h0]
    · simp [h0, hc]
  · intro hm hp q b hq hb
    cases hf : (find_activity_by_id project update_id (some none)).1 with
    | none =>
      rw [(update_activity_workflow_not_found upd_a upd_m upd_p project update_id hf).1]
      exact hq
    | some ptr =>
      obtain ⟨_, a, hat, _⟩ := find_activity_by_id_valid project update_id (some none) ptr hf
      rw [update_activity_workflow_found upd_a upd_m upd_p project update_id ptr a hf hat]
      by_cases h0 : display_incomplete_activities project = 0 ∨ update_id = 0
      · simpa [h0] using hq
      · cases hc : a.completed with
        | true => simpa [h0] using hq
        | false =>
          have hne : ptr ≠ q := by
            rintro rfl
            rw [hat] at hq
            cases hq
            rw [hc] at hb
            cases hb
          simp only [h0, if_false, Bool.false_eq_true, hp,
            activity_at_apply_update_milestone upd_m hm, activity_at_apply_update_activity,
            hne]
          exact hq

theorem update_activity_workflow_blocked_witness :
    (find_activity_by_id website_launch 20 (some none)).1 = some (1, 0) ∧
      (activity_at website_launch (1, 0)).map (fun a => a.completed) = some true ∧
      update_activity_workflow (update_activity 5 3 false) update_milestone update_project
        website_launch 20 =
        (website_launch,
          [call_t.display_incomplete_activities, call_t.find_activity_by_id 20]) ∧
      activity_at
        (update_activity_workflow (update_activity 5 3 true) update_milestone update_project
          website_launch 21).1 (1, 0) = activity_at website_launch (1, 0) :=
  ⟨by decide, rfl,
    Prod.ext
      ((update_activity_workflow_blocked (update_activity 5 3 false) update_milestone
        update_project website_launch 20).1 (1, 0) _ (by decide) rfl rfl).1
      rfl,
    (update_activity_workflow_blocked (update_activity 5 3 true) update_milestone
      update_project website_launch 21).2 (fun _ => rfl) (fun _ _ => rfl) (1, 0) _ rfl rfl⟩

/-! ## Claims on `display_incomplete_activities` and on cancelling -/

/-- C11: `display_incomplete_activities` returns the number of activities,
counted over all milestones, whose `completed` flag is false, a number that
is at most the number of activities. It returns 0 if and only if every
activity of every milestone is completed, and then the update workflow stops
right after this call, whatever id would be entered, with the project as it
was. -/
theorem display_incomplete_activities_count (upd_a : activity_t C → activity_t C)
    (upd_m : milestone_t C → milestone_t C) (upd_p : project_t C → project_t C)
    (project : project_t C) (update_id : Nat) :
    display_incomplete_activities project
        = (project.milestone_list.map fun m =>
            m.activity_list.countP fun a => !a.completed).sum ∧
      display_incomplete_activities project
        ≤ (project.milestone_list.map fun m => m.activity_list.length).sum ∧
      (display_incomplete_activities project = 0 ↔
        ∀ m ∈ project.milestone_list, ∀ a ∈ m.activity_list, a.completed = true) ∧
      (display_incomplete_activities project = 0 →
        update_activity_workflow upd_a upd_m upd_p project update_id
          = (project, [call_t.display_incomplete_activities])) := by
  refine ⟨?_, display_incomplete_activities_le project,
    display_incomplete_activities_eq_zero project, ?_⟩
  · unfold display_incomplete_activities
    rw [count_incomplete_in_milestone_list_eq, Nat.zero_add]
  · intro h0
    simp [update_activity_workflow, h0]

theorem display_incomplete_activities_count_witness :
    display_incomplete_activities website_launch = 3 ∧
      display_incomplete_activities all_completed = 0 ∧
      (∀ m ∈ all_completed.milestone_list, ∀ a ∈ m.activity_list, a.completed = true) ∧
      update_activity_workflow (update_activity 5 3 true) update_milestone update_project
        all_completed 10 = (all_completed, [call_t.display_incomplete_activities]) :=
  have h0 : display_incomplete_activities all_completed = 0 := by decide
  ⟨by decide, h0,
    (display_incomplete_activities_count (update_activity 5 3 true) update_milestone
      update_project all_completed 10).2.2.1.1 h0,
    (display_incomplete_activities_count (update_activity 5 3 true) update_milestone
      update_project all_completed 10).2.2.2 h0⟩

/-- C12: when the id entered in the update workflow is 0, the workflow stops
before any lookup. The only call made is `display_incomplete_activities`, so
none of `find_activity_by_id`, `update_activity`, `update_milestone`,
`update_project` is called, and the project is as it was, whether or not an
activity of the project has the identifier 0. -/
theorem update_activity_workflow_cancel (upd_a : activity_t C → activity_t C)
    (upd_m : milestone_t C → milestone_t C) (upd_p : project_t C → project_t C)
    (project : project_t C) :
    update_activity_workflow upd_a upd_m upd_p project 0
      = (project, [call_t.display_incomplete_activities]) := by
  unfold update_activity_workflow
  by_cases h0 : display_incomplete_activities project = 0
  · simp [h0]
  · simp [h0]

theorem update_activity_workflow_cancel_witness :
    (find_activity_by_id with_id_zero 0 (some none)).1 = some (1, 0) ∧
      (activity_at with_id_zero (1, 0)).map (fun a => (a.id, a.completed)) = some (0, false) ∧
      display_incomplete_activities with_id_zero = 3 ∧
      update_activity_workflow (update_activity 5 3 true) update_milestone update_project
        with_id_zero 0 = (with_id_zero, [call_t.display_incomplete_activities]) ∧
      update_activity_workflow (update_activity 5 3 true) update_milestone update_project
        website_launch 0 = (website_launch, [call_t.display_incomplete_activities]) :=
  ⟨by decide, rfl, by decide,
    update_activity_workflow_cancel (update_activity 5 3 true) update_milestone update_project
      with_id_zero,
    update_activity_workflow_cancel (update_activity 5 3 true) update_milestone update_project
      website_launch⟩

end ProjectManagement
